import Mathlib

/-!
Verification of the probe-state and peer-discovery subsystem of the
FastAPI probe demo (`src/app/main.py`).

The embedding models:
* the process-wide mutable flags `READY` and `HEALTHY` (`AppState`);
* the probe handlers `readiness` (/ready), `liveness` (/healthz),
  `startup` (/startup) and the two toggle handlers;
* a small-step trace semantics (`step`, `runTrace`, `runOutputs`) in which
  each request carries the elapsed time since process start (seconds, ℚ;
  `APP_START_TIME` is taken as 0);
* the two peer-discovery strategies, their composition and the async
  wrapper, with the external world (Kubernetes API call results, DNS
  resolution results, the locally resolved address) passed as explicit
  inputs;
* the `/info` environment dump (masking and truncation).
-/

/- ------------------------------------------------------------------ -/
/- Generic helpers: lexicographic string order, Python-style rounding  -/
/- ------------------------------------------------------------------ -/

/-- Lexicographic (code-point) comparison of character lists; this is the
order Python uses to compare strings, and it agrees with Lean's `≤` on
`String` (see `strLe_iff`). -/
def charListLe : List Char → List Char → Bool
  | [], _ => true
  | _ :: _, [] => false
  | a :: as, b :: bs => if a = b then charListLe as bs else decide (a < b)

/-- Lexicographic comparison of strings by code points. -/
def strLe (a b : String) : Bool := charListLe a.data b.data

/-- Stable ascending sort by a string key; models Python's
`sorted(xs, key=...)` (a stable sort, ascending, lexicographic on the
string key). -/
def sortByKey {α : Type} (key : α → String) (l : List α) : List α :=
  List.insertionSort (fun a b => strLe (key a) (key b) = true) l

/-- Python's `round` on an exact rational: round half to even. -/
def pyRound (x : ℚ) : ℤ :=
  let n := ⌊x⌋
  let frac := x - n
  if frac < 1/2 then n
  else if 1/2 < frac then n + 1
  else if n % 2 = 0 then n else n + 1

/-- Python's `round(x, 1)`: round to one decimal place. -/
def roundTo1 (x : ℚ) : ℚ := (pyRound (x * 10) : ℚ) / 10

/- ------------------------------------------------------------------ -/
/- Probe state (the module-level variables READY and HEALTHY)          -/
/- ------------------------------------------------------------------ -/

/-- The two mutable module-level flags of `main.py`.  `STARTUP_DELAY` is a
config constant and is passed to the handlers explicitly; `APP_START_TIME`
is normalised to 0, so request timestamps are elapsed seconds. -/
structure AppState where
  ready : Bool
  healthy : Bool
deriving DecidableEq

/-- Initial state at process start: `READY = False`, `HEALTHY = True`
(main.py lines 44-45). -/
def initState : AppState := { ready := false, healthy := true }

/-- Result of the readiness handler: 503 with the rounded remaining
seconds, or 200. -/
inductive ReadyResult where
  | NOT_READY (remaining : ℚ)
  | READY
deriving DecidableEq

/-- HTTP status code of a readiness result. -/
def ReadyResult.status : ReadyResult → Nat
  | NOT_READY _ => 503
  | READY => 200

/-- The `/ready` handler (main.py `readiness`, lines 287-340).
If `elapsed < STARTUP_DELAY` it returns 503 reporting
`round(STARTUP_DELAY - elapsed, 1)` seconds remaining and leaves the state
alone; otherwise it sets `READY = True` and returns 200.  Note that after
the delay it never consults the `READY` flag. -/
def readiness (startup_delay elapsed : ℚ) (s : AppState) : AppState × ReadyResult :=
  if elapsed < startup_delay then
    (s, ReadyResult.NOT_READY (roundTo1 (startup_delay - elapsed)))
  else
    ({ s with ready := true }, ReadyResult.READY)

/-- The `/healthz` handler (main.py `liveness`, lines 236-284): 503 when
`HEALTHY` is false, 200 otherwise; no mutation. -/
def liveness (s : AppState) : Nat :=
  if !s.healthy then 503 else 200

/-- The `/startup` handler (main.py `startup`, lines 343-373): 503 while
`elapsed < 2` (the fixed 2-second init window), 200 afterwards; it reads
no mutable state. -/
def startup (elapsed : ℚ) : Nat :=
  if elapsed < 2 then 503 else 200

/-- The `/toggle-health` handler (main.py lines 508-517): flips `HEALTHY`
and reports the new value. -/
def toggle_health (s : AppState) : AppState × Bool :=
  let new := !s.healthy
  ({ s with healthy := new }, new)

/-- The `/toggle-ready` handler (main.py lines 580-589): flips `READY`
and reports the new value. -/
def toggle_ready (s : AppState) : AppState × Bool :=
  let new := !s.ready
  ({ s with ready := new }, new)

/-- The HTTP endpoints that touch or report probe state.  `index`, `info`
and `stress` never touch the probe flags and always answer 200. -/
inductive Req where
  | healthz
  | ready
  | startup
  | toggleHealth
  | toggleReady
  | index
  | info
  | stress
deriving DecidableEq

/-- One request: given the elapsed time `t` of the request, produce the
new state and the HTTP status code of the response.  Every toggle and
every page endpoint answers 200. -/
def step (startup_delay : ℚ) (s : AppState) (t : ℚ) : Req → AppState × Nat
  | Req.healthz => (s, liveness s)
  | Req.ready => ((readiness startup_delay t s).1, (readiness startup_delay t s).2.status)
  | Req.startup => (s, startup t)
  | Req.toggleHealth => ((toggle_health s).1, 200)
  | Req.toggleReady => ((toggle_ready s).1, 200)
  | Req.index => (s, 200)
  | Req.info => (s, 200)
  | Req.stress => (s, 200)

/-- Run a trace of timestamped requests, returning the final state. -/
def runTrace (startup_delay : ℚ) : AppState → List (ℚ × Req) → AppState
  | s, [] => s
  | s, e :: rest => runTrace startup_delay (step startup_delay s e.1 e.2).1 rest

/-- Run a trace of timestamped requests, returning the status codes. -/
def runOutputs (startup_delay : ℚ) : AppState → List (ℚ × Req) → List Nat
  | _, [] => []
  | s, e :: rest =>
      (step startup_delay s e.1 e.2).2 :: runOutputs startup_delay (step startup_delay s e.1 e.2).1 rest

/- ------------------------------------------------------------------ -/
/- Peer discovery (main.py lines 59-152)                               -/
/- ------------------------------------------------------------------ -/

/-- One entry of a pod's `status.conditions` list. -/
structure PodCondition where
  type : String
  status : String
deriving DecidableEq

/-- One entry of a pod's `status.container_statuses` list. -/
structure ContainerStatus where
  restart_count : Nat
deriving DecidableEq

/-- The pod metadata consulted by the discovery code. -/
structure PodMeta where
  name : String
deriving DecidableEq

/-- The pod spec consulted by the discovery code; `node_name` may be
absent. -/
structure PodSpec where
  node_name : Option String
deriving DecidableEq

/-- The pod status consulted by the discovery code; the optional fields
model the Kubernetes client's `None` values. -/
structure PodStatus where
  pod_ip : Option String
  phase : String
  conditions : Option (List PodCondition)
  container_statuses : Option (List ContainerStatus)
deriving DecidableEq

/-- A pod as returned by `list_namespaced_pod`. -/
structure Pod where
  metadata : PodMeta
  spec : PodSpec
  status : PodStatus
deriving DecidableEq

/-- One peer record (the dict built by both discovery strategies). -/
structure Peer where
  name : String
  ip : String
  node : String
  phase : String
  ready : Bool
  restarts : Nat
  is_self : Bool
deriving DecidableEq

/-- Python's `x or default` on an optional string: `None` and the empty
string are falsy. -/
def pyOrStr : Option String → String → String
  | none, d => d
  | some s, d => if s = "" then d else s

/-- The record built for one deduplicated address in `_discover_via_dns`
(main.py lines 81-89): the address doubles as the identifier, node is the
em-dash "unknown" marker, phase is unconditionally Running, ready is
unconditionally true, restarts 0, and `is_self` compares the address with
the locally resolved address. -/
def mkDnsPeer (my_ip ip : String) : Peer :=
  { name := ip
    ip := ip
    node := "—"
    phase := "Running"
    ready := true
    restarts := 0
    is_self := ip == my_ip }

/-- The deduplication effect of the `seen` set in `_discover_via_dns`:
keep the first occurrence of each address, in order. -/
def dedupAux : List String → List String → List String
  | _, [] => []
  | seen, ip :: rest =>
      if ip ∈ seen then dedupAux seen rest
      else ip :: dedupAux (ip :: seen) rest

/-- The loop of `_discover_via_dns` (main.py lines 75-89): skip addresses
already seen, otherwise record them as peers. -/
def dnsLoop (my_ip : String) : List String → List String → List Peer
  | _, [] => []
  | seen, ip :: rest =>
      if ip ∈ seen then dnsLoop my_ip seen rest
      else mkDnsPeer my_ip ip :: dnsLoop my_ip (ip :: seen) rest

/-- Strategy B, `_discover_via_dns` (main.py lines 66-92).  `resolution`
is the address list extracted from `socket.getaddrinfo` (`none` models a
raised `socket.gaierror`); `my_ip` is the locally resolved address.  The
peers are sorted ascending by address. -/
def _discover_via_dns (resolution : Option (List String)) (my_ip : String) : List Peer :=
  match resolution with
  | none => []
  | some ips => sortByKey (fun p => p.ip) (dnsLoop my_ip [] ips)

/-- The record built for one pod in `_discover_via_k8s_api` (main.py
lines 110-127): ready is true iff some condition has type "Ready" and
status "True", restarts is the sum of the containers' restart counts, and
`is_self` compares the pod IP (with the "pending" fallback) to the
locally resolved address. -/
def mkPodPeer (my_ip : String) (pod : Pod) : Peer :=
  { name := pod.metadata.name
    ip := pyOrStr pod.status.pod_ip ("pending")
    node := pyOrStr pod.spec.node_name ("unknown")
    phase := pod.status.phase
    ready := (pod.status.conditions.getD []).any
        (fun c => c.type == "Ready" && c.status == "True")
    restarts := ((pod.status.container_statuses.getD []).map
        (fun cs => cs.restart_count)).sum
    is_self := pyOrStr pod.status.pod_ip ("pending") == my_ip }

/-- Strategy A, `_discover_via_k8s_api` (main.py lines 95-131).
`k8s_available` is the module flag `K8S_AVAILABLE`; `apiCall` is the
outcome of `list_namespaced_pod` (`Except.error` models any raised
exception — permission denied, timeout, network failure — all caught and
turned into `[]`); `my_ip` is the locally resolved address.  The peers
are sorted ascending by name. -/
def _discover_via_k8s_api (k8s_available : Bool) (apiCall : Except String (List Pod))
    (my_ip : String) : List Peer :=
  if !k8s_available then []
  else
    match apiCall with
    | Except.error _ => []
    | Except.ok pods => sortByKey (fun p => p.name) (pods.map (mkPodPeer my_ip))

/-- The composition `_fetch_peer_pods` (main.py lines 134-139): try the
API strategy; if it yields a non-empty list return it, otherwise return
the DNS strategy's result. -/
def _fetch_peer_pods (k8s_available : Bool) (apiCall : Except String (List Pod))
    (resolution : Option (List String)) (my_ip : String) : List Peer :=
  let peers := _discover_via_k8s_api k8s_available apiCall my_ip
  if peers.isEmpty then _discover_via_dns resolution my_ip else peers

/-- The async wrapper `get_peer_pods` (main.py lines 142-152): `Except.ok`
carries the discovery result when `asyncio.wait_for` completes within the
3-second budget, `Except.error` models `asyncio.TimeoutError` or any other
exception — both are caught and answered with the empty list. -/
def get_peer_pods (outcome : Except Unit (List Peer)) : List Peer :=
  match outcome with
  | Except.ok peers => peers
  | Except.error _ => []

/- ------------------------------------------------------------------ -/
/- Rendering and the /info environment dump (main.py lines 155-204,    -/
/- 453-505)                                                            -/
/- ------------------------------------------------------------------ -/

/-- A FastAPI `HTMLResponse`; the status code defaults to 200 when the
handler does not pass one. -/
structure HTMLResponse where
  content : String
  status_code : Nat := 200
deriving DecidableEq

/-- One row of the peer table (main.py lines 169-188; markup abridged,
data-dependent parts kept). -/
def render_peer_row (p : Peer) : String :=
  "<tr><td><code>" ++ p.name ++ "</code>"
    ++ (if p.is_self then " <span class=tag>YOU</span>" else "")
    ++ "</td><td><code>" ++ p.ip ++ "</code></td><td><code>" ++ p.node
    ++ "</code></td><td>" ++ (if p.ready then "ok " else "fail ") ++ p.phase
    ++ "</td><td>" ++ toString p.restarts ++ "</td></tr>"

/-- The peer table (main.py `render_peer_table`): an empty peer list
renders the degraded "peer discovery unavailable" card, still as part of
a 200 response. -/
def render_peer_table (peers : List Peer) : String :=
  if peers.isEmpty then
    "<div class=card><h2>Peer Pods</h2><p><em>Peer discovery unavailable - RBAC or Kubernetes client not configured.</em></p></div>"
  else
    "<div class=card><h2>Peer Pods</h2><table>"
      ++ peers.foldl (fun acc p => acc ++ render_peer_row p) ""
      ++ "</table></div>"

/-- ASCII upper-casing of a string, modelling Python's `str.upper` on
environment-variable names. -/
def upperAscii (s : String) : String := String.mk (s.data.map Char.toUpper)

/-- Python's substring test `needle in hay` on character lists. -/
def containsSeq (needle : List Char) : List Char → Bool
  | [] => needle.isEmpty
  | c :: rest => needle.isPrefixOf (c :: rest) || containsSeq needle rest

/-- The secret-name markers of main.py line 461. -/
def secretMarkers : List String := [("SECRET"), ("PASSWORD"), ("TOKEN"), ("KEY")]

/-- Whether an environment variable name is treated as secret-like:
`any(s in key.upper() for s in ["SECRET", "PASSWORD", "TOKEN", "KEY"])`. -/
def isSecretKey (key : String) : Bool :=
  secretMarkers.any (fun s => containsSeq s.data (upperAscii key).data)

/-- Python's slice `s[:n]`: the first `n` characters. -/
def strTake (s : String) (n : Nat) : String := String.mk (s.data.take n)

/-- One row of the environment table (main.py lines 461-464): secret-like
names get a masked value, all other values are truncated to their first
100 characters. -/
def envRow (key value : String) : String :=
  if isSecretKey key then
    "<tr><td><code>" ++ key ++ "</code></td><td>••••••••</td></tr>"
  else
    "<tr><td><code>" ++ key ++ "</code></td><td><code>" ++ strTake value 100 ++ "</code></td></tr>"

/-- The environment table body (main.py lines 459-464): iterate the
environment in sorted key order, appending one row per variable. -/
def env_rows (env : List (String × String)) : String :=
  (sortByKey (fun kv => kv.1) env).foldl (fun acc kv => acc ++ envRow kv.1 kv.2) ""

/-- Relation between two environments that agree on names and on the
displayed part (first 100 characters) of every non-secret value; secret
values may differ arbitrarily. -/
def envRel (kv kw : String × String) : Prop :=
  kv.1 = kw.1 ∧ (isSecretKey kv.1 = false → strTake kv.2 100 = strTake kw.2 100)

/-- The landing-page handler (main.py `index`, lines 380-450): always
HTTP 200; markup abridged to the peer table, the only data-dependent
part the claims touch. -/
def index (peers : List Peer) : HTMLResponse :=
  { content := "<h1>EKS Probe Demo - FastAPI</h1>" ++ render_peer_table peers }

/-- The `/info` handler (main.py `info`, lines 453-505): always HTTP 200;
contains the peer table and the environment dump. -/
def info (peers : List Peer) (env : List (String × String)) : HTMLResponse :=
  { content := "<h1>Pod Info</h1>" ++ render_peer_table peers
      ++ "<table><tr><th>Variable</th><th>Value</th></tr>" ++ env_rows env ++ "</table>" }

/-- Concrete sample pod used by witness theorems. -/
def samplePodA : Pod :=
  { metadata := { name := "pod-a" }
    spec := { node_name := some ("node-1") }
    status := { pod_ip := some ("10.0.0.7")
                phase := "Running"
                conditions := some [{ type := "Ready", status := "True" }]
                container_statuses := some [{ restart_count := 1 }, { restart_count := 2 }] } }

/- ------------------------------------------------------------------ -/
/- Theorems for the probe-state claims                                 -/
/- ------------------------------------------------------------------ -/

/-- C1. The claim says that after the startup delay `/ready` reports
whichever value the toggle last set (initial post-gate value XOR the
toggle parity).  The code does not: evaluating the handler on the trace
"query at t=6, toggle-ready, query at t=7" (with the default
`STARTUP_DELAY = 5`) the flag is `False` before the last query, yet the
query answers 200 — the handler ignores `READY` after the gate and
force-sets it back to `True`.  The claim (and the handler docstrings of
`main.py` itself) demand 503 here. -/
theorem C1_code_eval :
    runOutputs 5 initState [((6 : ℚ), Req.ready), ((6 : ℚ), Req.toggleReady), ((7 : ℚ), Req.ready)]
      = [200, 200, 200]
    ∧ (runTrace 5 initState [((6 : ℚ), Req.ready), ((6 : ℚ), Req.toggleReady)]).ready = false := by
  decide

/-- C2. After the startup delay has elapsed, the `/ready` handler returns
200 and force-sets `READY = True` no matter what the flag was
(so no sequence of prior toggles can make it answer 503), and the handler
is not mutation-free. -/
theorem C2_ready_after_delay :
    (∀ (startup_delay t : ℚ) (s : AppState), startup_delay ≤ t →
        (readiness startup_delay t s).2 = ReadyResult.READY
      ∧ ((readiness startup_delay t s).2).status = 200
      ∧ (readiness startup_delay t s).1.ready = true)
    ∧ (∃ (startup_delay t : ℚ) (s : AppState), (readiness startup_delay t s).1 ≠ s) := by
  constructor
  · intro d t s h
    have hc : ¬ t < d := not_lt.mpr h
    simp [readiness, hc, ReadyResult.status]
  · exact ⟨0, 0, initState, by decide⟩

/-- C2 witness: a concrete instance with the hypothesis `5 ≤ 6`
discharged. -/
theorem C2_ready_after_delay_witness :
    (readiness 5 6 initState).2 = ReadyResult.READY
    ∧ ((readiness 5 6 initState).2).status = 200
    ∧ (readiness 5 6 initState).1.ready = true :=
  C2_ready_after_delay.1 5 6 initState (by decide)

/-- C3. Strictly before `processStart + STARTUP_DELAY` the readiness query
answers 503 with the rounded remaining seconds and does not touch the
state, regardless of the toggle state; concretely with delay 5 a request
at t=3 yields 503 with 2 seconds remaining and a request at t=6 yields
200. -/
theorem C3_ready_before_delay :
    (∀ (startup_delay t : ℚ) (s : AppState), t < startup_delay →
        (readiness startup_delay t s).2 = ReadyResult.NOT_READY (roundTo1 (startup_delay - t))
      ∧ ((readiness startup_delay t s).2).status = 503
      ∧ (readiness startup_delay t s).1 = s)
    ∧ (readiness 5 3 initState).2 = ReadyResult.NOT_READY 2
    ∧ ((readiness 5 6 initState).2).status = 200 := by
  refine ⟨?_, ?_, ?_⟩
  · intro d t s h
    simp [readiness, h, ReadyResult.status]
  · have h3 : ((3 : ℚ)) < 5 := by norm_num
    have hr : roundTo1 ((5 : ℚ) - 3) = 2 := by
      have h20 : ((5 : ℚ) - 3) * 10 = 20 := by norm_num
      rw [roundTo1, h20]
      rw [show pyRound 20 = 20 from by rw [pyRound]; norm_num]
      norm_num
    simp [readiness, h3, hr]
  · have h6 : ¬ ((6 : ℚ) < 5) := by norm_num
    simp [readiness, h6, ReadyResult.status]

/-- C3 witness: the hypothesis `3 < 5` discharged at a concrete input. -/
theorem C3_ready_before_delay_witness :
    (readiness 5 3 initState).2 = ReadyResult.NOT_READY (roundTo1 (5 - 3))
    ∧ ((readiness 5 3 initState).2).status = 503
    ∧ (readiness 5 3 initState).1 = initState :=
  C3_ready_before_delay.1 5 3 initState (by norm_num)

/-- C5. After the fixed 2-second init window the `/startup` query answers
200, from any state reachable by any trace; and at any later
(non-decreasing) timestamp, after any further requests or toggles, it
still answers 200 — it never reverts to 503. -/
theorem C5_startup_permanent :
    ∀ (startup_delay : ℚ) (s : AppState) (evs evs2 : List (ℚ × Req)) (t t2 : ℚ),
      2 ≤ t → t ≤ t2 →
        (step startup_delay (runTrace startup_delay s evs) t Req.startup).2 = 200
      ∧ (step startup_delay (runTrace startup_delay s (evs ++ evs2)) t2 Req.startup).2 = 200 := by
  intro d s evs evs2 t t2 h1 h2
  have ht : ¬ t < 2 := not_lt.mpr h1
  have ht2 : ¬ t2 < 2 := not_lt.mpr (le_trans h1 h2)
  exact ⟨by simp [step, startup, ht], by simp [step, startup, ht2]⟩

/-- C5 witness: concrete trace, startup queries at t=2 and t=3. -/
theorem C5_startup_permanent_witness :
    (step 5 (runTrace 5 initState [((1 : ℚ), Req.toggleReady)]) 2 Req.startup).2 = 200
    ∧ (step 5 (runTrace 5 initState ([((1 : ℚ), Req.toggleReady)] ++ [((2 : ℚ), Req.toggleHealth)])) 3 Req.startup).2 = 200 :=
  C5_startup_permanent 5 initState [((1 : ℚ), Req.toggleReady)] [((2 : ℚ), Req.toggleHealth)] 2 3
    (by norm_num) (by norm_num)

/-- Auxiliary for C6: a run of N toggle-health requests flips `HEALTHY`
N times. -/
theorem runTrace_toggleHealth (d : ℚ) :
    ∀ (ts : List ℚ) (s : AppState),
      (runTrace d s (ts.map (fun t => (t, Req.toggleHealth)))).healthy
        = xor s.healthy (decide (ts.length % 2 = 1))
  | [], s => by simp [runTrace]
  | t :: ts, s => by
    have ih := runTrace_toggleHealth d ts { s with healthy := !s.healthy }
    simp only [List.map_cons, runTrace, step, toggle_health] at ih ⊢
    rw [ih]
    rcases Nat.mod_two_eq_zero_or_one ts.length with h | h
    · have h1 : (ts.length + 1) % 2 = 1 := by omega
      simp [List.length_cons, h, h1]
    · have h1 : ¬ ((ts.length + 1) % 2 = 1) := by omega
      simp [List.length_cons, h, h1]

/-- C6. After N toggle-health requests the liveness flag equals the
initial value XOR (N mod 2 = 1); `/healthz` answers 200 exactly when the
flag is true and 503 exactly when it is false; and on a fresh instance
one toggle makes `/healthz` answer 503, a second toggle 200 again. -/
theorem C6_toggle_health_parity :
    (∀ (startup_delay : ℚ) (s : AppState) (ts : List ℚ),
        (runTrace startup_delay s (ts.map (fun t => (t, Req.toggleHealth)))).healthy
          = xor s.healthy (decide (ts.length % 2 = 1)))
    ∧ (∀ s : AppState, (liveness s = 200 ↔ s.healthy = true) ∧ (liveness s = 503 ↔ s.healthy = false))
    ∧ liveness (toggle_health initState).1 = 503
    ∧ liveness (toggle_health (toggle_health initState).1).1 = 200 := by
  refine ⟨fun d s ts => runTrace_toggleHealth d ts s, ?_, by decide, by decide⟩
  intro s
  cases h : s.healthy <;> simp [liveness, h]

/- ------------------------------------------------------------------ -/
/- Helper lemmas: the lexicographic order and the stable sort          -/
/- ------------------------------------------------------------------ -/

/-- Totality of the lexicographic comparison. -/
theorem charListLe_total : ∀ (a b : List Char), charListLe a b = true ∨ charListLe b a = true
  | [], _ => Or.inl rfl
  | _ :: _, [] => Or.inr rfl
  | a :: as, b :: bs => by
    by_cases h : a = b
    · subst h
      simpa [charListLe] using charListLe_total as bs
    · rcases lt_trichotomy a b with hl | he | hg
      · left
        simp [charListLe, h, hl]
      · exact absurd he h
      · right
        simp [charListLe, Ne.symm h, hg]

/-- Transitivity of the lexicographic comparison. -/
theorem charListLe_trans : ∀ (a b c : List Char),
    charListLe a b = true → charListLe b c = true → charListLe a c = true
  | [], _, _, _, _ => rfl
  | _ :: _, [], _, h, _ => by simp [charListLe] at h
  | _ :: _, _ :: _, [], _, h => by simp [charListLe] at h
  | a :: as, b :: bs, c :: cs, h1, h2 => by
    by_cases hab : a = b <;> by_cases hbc : b = c
    · subst hab; subst hbc
      simp only [charListLe, if_pos rfl] at h1 h2 ⊢
      exact charListLe_trans as bs cs h1 h2
    · subst hab
      simp only [charListLe, if_neg hbc] at h2
      have hlt : a < c := of_decide_eq_true h2
      simp [charListLe, ne_of_lt hlt, hlt]
    · subst hbc
      simp only [charListLe, if_neg hab] at h1
      have hlt : a < b := of_decide_eq_true h1
      simp [charListLe, ne_of_lt hlt, hlt]
    · simp only [charListLe, if_neg hab] at h1
      simp only [charListLe, if_neg hbc] at h2
      have hlt : a < c := lt_trans (of_decide_eq_true h1) (of_decide_eq_true h2)
      simp [charListLe, ne_of_lt hlt, hlt]

/-- The comparison agrees with lexicographic strict-order-or-equality on
lists. -/
theorem charListLe_iff_lex : ∀ (x y : List Char),
    charListLe x y = true ↔ (List.Lex (· < ·) x y ∨ x = y)
  | [], [] => by
    simp [charListLe]
  | [], b :: bs => by
    exact iff_of_true rfl (Or.inl List.Lex.nil)
  | a :: as, [] => by
    constructor
    · intro h
      simp [charListLe] at h
    · rintro (h | h)
      · cases h
      · cases h
  | a :: as, b :: bs => by
    by_cases he : a = b
    · subst he
      have hstep : charListLe (a :: as) (a :: bs) = charListLe as bs := by
        simp [charListLe]
      rw [hstep, charListLe_iff_lex as bs]
      constructor
      · rintro (h | h)
        · exact Or.inl (List.Lex.cons h)
        · subst h
          exact Or.inr rfl
      · rintro (h | h)
        · cases h with
          | cons h3 => exact Or.inl h3
          | rel hx => exact absurd hx (lt_irrefl a)
        · injection h with h1 h2
          exact Or.inr h2
    · rcases lt_trichotomy a b with hl | he2 | hg
      · have hstep : charListLe (a :: as) (b :: bs) = true := by
          simp [charListLe, he, hl]
        rw [hstep]
        exact iff_of_true rfl (Or.inl (List.Lex.rel hl))
      · exact absurd he2 he
      · have hstep : charListLe (a :: as) (b :: bs) = false := by
          simp only [charListLe, if_neg he]
          exact decide_eq_false (asymm hg)
        rw [hstep]
        constructor
        · intro h
          cases h
        · rintro (h | h)
          · cases h with
            | cons h3 => exact (he rfl).elim
            | rel hx => exact absurd hx (asymm hg)
          · injection h with h1 h2
            exact (he h1).elim

/-- The executable comparison coincides with Lean's `≤` on `String`. -/
theorem strLe_iff (a b : String) : strLe a b = true ↔ a ≤ b := by
  rw [le_iff_lt_or_eq, String.lt_iff_toList_lt, ← String.toList_inj]
  exact charListLe_iff_lex a.data b.data

/-- The sort produces a list that is pairwise ordered by the key. -/
theorem sortByKey_sorted {α : Type} (key : α → String) (l : List α) :
    List.Pairwise (fun a b => strLe (key a) (key b) = true) (sortByKey key l) := by
  haveI inst1 : IsTotal α (fun a b => strLe (key a) (key b) = true) :=
    ⟨fun a b => charListLe_total (key a).data (key b).data⟩
  haveI inst2 : IsTrans α (fun a b => strLe (key a) (key b) = true) :=
    ⟨fun a b c h1 h2 => charListLe_trans (key a).data (key b).data (key c).data h1 h2⟩
  exact List.sorted_insertionSort _ l

/-- The sort permutes its input. -/
theorem sortByKey_perm {α : Type} (key : α → String) (l : List α) :
    List.Perm (sortByKey key l) l :=
  List.perm_insertionSort _ l

/- ------------------------------------------------------------------ -/
/- Helper lemmas: deduplication in the DNS strategy                    -/
/- ------------------------------------------------------------------ -/

/-- The DNS loop is deduplication followed by record construction. -/
theorem dnsLoop_eq_map (my_ip : String) :
    ∀ (seen l : List String), dnsLoop my_ip seen l = (dedupAux seen l).map (mkDnsPeer my_ip)
  | _, [] => rfl
  | seen, ip :: rest => by
    by_cases h : ip ∈ seen
    · simp [dnsLoop, dedupAux, h, dnsLoop_eq_map my_ip seen rest]
    · simp [dnsLoop, dedupAux, h, dnsLoop_eq_map my_ip (ip :: seen) rest]

/-- Membership after deduplication. -/
theorem mem_dedupAux : ∀ (seen l : List String) (x : String),
    x ∈ dedupAux seen l ↔ (x ∈ l ∧ x ∉ seen)
  | _, [], x => by simp [dedupAux]
  | seen, ip :: rest, x => by
    by_cases h : ip ∈ seen
    · rw [dedupAux, if_pos h, mem_dedupAux seen rest x]
      constructor
      · rintro ⟨h1, h2⟩
        exact ⟨List.mem_cons_of_mem ip h1, h2⟩
      · rintro ⟨h1, h2⟩
        rcases List.mem_cons.mp h1 with rfl | h3
        · exact absurd h h2
        · exact ⟨h3, h2⟩
    · rw [dedupAux, if_neg h]
      constructor
      · intro hx
        rcases List.mem_cons.mp hx with rfl | h3
        · exact ⟨List.mem_cons_self x rest, h⟩
        · have h4 := (mem_dedupAux (ip :: seen) rest x).mp h3
          exact ⟨List.mem_cons_of_mem ip h4.1,
            fun hs => h4.2 (List.mem_cons_of_mem ip hs)⟩
      · rintro ⟨h1, h2⟩
        by_cases hxip : x = ip
        · subst hxip
          exact List.mem_cons_self x _
        · rcases List.mem_cons.mp h1 with rfl | h3
          · exact absurd rfl hxip
          · refine List.mem_cons_of_mem ip ((mem_dedupAux (ip :: seen) rest x).mpr ⟨h3, ?_⟩)
            intro hs
            rcases List.mem_cons.mp hs with h4 | h4
            · exact hxip h4
            · exact h2 h4

/-- Deduplication yields a list without duplicates. -/
theorem nodup_dedupAux : ∀ (seen l : List String), (dedupAux seen l).Nodup
  | _, [] => List.nodup_nil
  | seen, ip :: rest => by
    by_cases h : ip ∈ seen
    · rw [dedupAux, if_pos h]
      exact nodup_dedupAux seen rest
    · rw [dedupAux, if_neg h]
      refine List.nodup_cons.mpr ⟨?_, nodup_dedupAux (ip :: seen) rest⟩
      intro hmem
      exact ((mem_dedupAux (ip :: seen) rest ip).mp hmem).2 (List.mem_cons_self ip seen)

/- ------------------------------------------------------------------ -/
/- Theorems for the peer-discovery claims                              -/
/- ------------------------------------------------------------------ -/

/-- C4. The composed discovery call returns exactly Strategy A's result
when that is non-empty, exactly Strategy B's result when Strategy A is
empty, and in every case returns one of the two whole results — never a
merge. -/
theorem C4_strategy_composition :
    ∀ (k8s_available : Bool) (apiCall : Except String (List Pod))
      (resolution : Option (List String)) (my_ip : String),
      (_discover_via_k8s_api k8s_available apiCall my_ip ≠ [] →
          _fetch_peer_pods k8s_available apiCall resolution my_ip
            = _discover_via_k8s_api k8s_available apiCall my_ip)
      ∧ (_discover_via_k8s_api k8s_available apiCall my_ip = [] →
          _fetch_peer_pods k8s_available apiCall resolution my_ip
            = _discover_via_dns resolution my_ip)
      ∧ (_fetch_peer_pods k8s_available apiCall resolution my_ip
            = _discover_via_k8s_api k8s_available apiCall my_ip
        ∨ _fetch_peer_pods k8s_available apiCall resolution my_ip
            = _discover_via_dns resolution my_ip) := by
  intro av call res my
  by_cases h : _discover_via_k8s_api av call my = []
  · have he : (_discover_via_k8s_api av call my).isEmpty = true := by
      simp [List.isEmpty_iff, h]
    refine ⟨fun hne => absurd h hne, fun _ => ?_, Or.inr ?_⟩ <;>
      simp [_fetch_peer_pods, he]
  · have he : ¬ (_discover_via_k8s_api av call my).isEmpty = true := by
      simpa [List.isEmpty_iff] using h
    refine ⟨fun _ => ?_, fun hz => absurd hz h, Or.inl ?_⟩ <;>
      simp [_fetch_peer_pods, he]

/-- C4 witness: with one reachable pod Strategy A is non-empty and the
composed call returns its result even though DNS would answer something
else. -/
theorem C4_strategy_composition_witness :
    _fetch_peer_pods true (Except.ok [samplePodA]) (some [("10.0.0.99")]) ("10.0.0.9")
      = _discover_via_k8s_api true (Except.ok [samplePodA]) ("10.0.0.9") :=
  (C4_strategy_composition true (Except.ok [samplePodA]) (some [("10.0.0.99")]) ("10.0.0.9")).1
    (by decide)

/-- C7. For every DNS resolution result, Strategy B returns the
deduplicated addresses sorted strictly ascending (lexicographically),
each record having identifier equal to its address, the em-dash "unknown"
node marker, phase Running, ready true, restart count 0, and is_self
exactly when the address equals the locally resolved address; the spec's
concrete example (addresses 10.0.0.5, 10.0.0.2, 10.0.0.2) yields exactly
the addresses 10.0.0.2, 10.0.0.5. -/
theorem C7_dns_strategy :
    (∀ (ips : List String) (my_ip : String),
        List.Pairwise (fun a b : Peer => a.ip < b.ip) (_discover_via_dns (some ips) my_ip)
      ∧ (∀ a : String,
            (a ∈ (_discover_via_dns (some ips) my_ip).map (fun r => r.ip)) ↔ a ∈ ips)
      ∧ (∀ r : Peer, r ∈ _discover_via_dns (some ips) my_ip →
              r.name = r.ip ∧ r.node = "—" ∧ r.phase = "Running" ∧ r.ready = true
            ∧ r.restarts = 0 ∧ (r.is_self = true ↔ r.ip = my_ip)))
    ∧ (∀ my_ip : String,
        (_discover_via_dns (some [("10.0.0.5"), ("10.0.0.2"), ("10.0.0.2")]) my_ip).map
            (fun r => r.ip)
          = [("10.0.0.2"), ("10.0.0.5")]) := by
  constructor
  · intro ips my
    have hres : _discover_via_dns (some ips) my
        = sortByKey (fun p => p.ip) ((dedupAux [] ips).map (mkDnsPeer my)) := by
      show sortByKey (fun p => p.ip) (dnsLoop my [] ips) = _
      rw [dnsLoop_eq_map]
    have hperm := sortByKey_perm (fun p : Peer => p.ip) ((dedupAux [] ips).map (mkDnsPeer my))
    have hsort := sortByKey_sorted (fun p : Peer => p.ip) ((dedupAux [] ips).map (mkDnsPeer my))
    refine ⟨?_, ?_, ?_⟩
    · rw [hres]
      have hle : List.Pairwise (fun a b : Peer => a.ip ≤ b.ip)
          (sortByKey (fun p => p.ip) ((dedupAux [] ips).map (mkDnsPeer my))) :=
        hsort.imp (fun h => (strLe_iff _ _).mp h)
      have hnd : List.Pairwise (fun a b : Peer => a.ip ≠ b.ip)
          ((dedupAux [] ips).map (mkDnsPeer my)) := by
        rw [List.pairwise_map]
        exact nodup_dedupAux [] ips
      have hne : List.Pairwise (fun a b : Peer => a.ip ≠ b.ip)
          (sortByKey (fun p => p.ip) ((dedupAux [] ips).map (mkDnsPeer my))) :=
        (hperm.pairwise_iff (fun h e => h e.symm)).mpr hnd
      exact (hle.and hne).imp (fun h => lt_of_le_of_ne h.1 h.2)
    · intro a
      rw [hres]
      have hpm : List.Perm
          ((sortByKey (fun p => p.ip) ((dedupAux [] ips).map (mkDnsPeer my))).map
            (fun r => r.ip))
          (dedupAux [] ips) := by
        have h2 := hperm.map (fun r : Peer => r.ip)
        rwa [List.map_map,
          show List.map ((fun r : Peer => r.ip) ∘ mkDnsPeer my) (dedupAux [] ips)
              = dedupAux [] ips from List.map_id _] at h2
      rw [hpm.mem_iff, mem_dedupAux]
      simp
    · intro r hr
      rw [hres] at hr
      have h2 : r ∈ (dedupAux [] ips).map (mkDnsPeer my) := hperm.subset hr
      rcases List.mem_map.mp h2 with ⟨x, hx, rfl⟩
      refine ⟨rfl, rfl, rfl, rfl, rfl, ?_⟩
      simp [mkDnsPeer]
  · intro my
    rfl

/-- C7 witness: the record for address 10.0.0.2 in the concrete scenario,
with the membership hypothesis discharged by evaluation. -/
theorem C7_dns_strategy_witness :
    (mkDnsPeer ("10.0.0.9") ("10.0.0.2")).name = (mkDnsPeer ("10.0.0.9") ("10.0.0.2")).ip
    ∧ (mkDnsPeer ("10.0.0.9") ("10.0.0.2")).node = "—"
    ∧ (mkDnsPeer ("10.0.0.9") ("10.0.0.2")).phase = "Running"
    ∧ (mkDnsPeer ("10.0.0.9") ("10.0.0.2")).ready = true
    ∧ (mkDnsPeer ("10.0.0.9") ("10.0.0.2")).restarts = 0
    ∧ ((mkDnsPeer ("10.0.0.9") ("10.0.0.2")).is_self = true
        ↔ (mkDnsPeer ("10.0.0.9") ("10.0.0.2")).ip = ("10.0.0.9")) :=
  (C7_dns_strategy.1 [("10.0.0.5"), ("10.0.0.2"), ("10.0.0.2")] ("10.0.0.9")).2.2
    (mkDnsPeer ("10.0.0.9") ("10.0.0.2")) (by decide)

/-- C8. For every successful control-plane query the records are sorted
ascending by name, and every returned record is built from one of the
queried pods with: ready true iff the pod's condition list contains an
entry of type "Ready" with status "True", restart count the sum over the
pod's containers, and is_self exactly when the record's address equals
the locally resolved address at call time. -/
theorem C8_k8s_strategy :
    ∀ (pods : List Pod) (my_ip : String),
      List.Pairwise (fun a b : Peer => a.name ≤ b.name)
          (_discover_via_k8s_api true (Except.ok pods) my_ip)
      ∧ (∀ r : Peer, r ∈ _discover_via_k8s_api true (Except.ok pods) my_ip →
          ∃ pod, pod ∈ pods ∧ r = mkPodPeer my_ip pod
            ∧ (r.ready = true ↔ ∃ c, c ∈ pod.status.conditions.getD []
                ∧ c.type = "Ready" ∧ c.status = "True")
            ∧ r.restarts = ((pod.status.container_statuses.getD []).map
                (fun cs => cs.restart_count)).sum
            ∧ (r.is_self = true ↔ r.ip = my_ip)) := by
  intro pods my
  have hres : _discover_via_k8s_api true (Except.ok pods) my
      = sortByKey (fun p => p.name) (pods.map (mkPodPeer my)) := rfl
  constructor
  · rw [hres]
    exact (sortByKey_sorted (fun p : Peer => p.name) (pods.map (mkPodPeer my))).imp
      (fun h => (strLe_iff _ _).mp h)
  · intro r hr
    rw [hres] at hr
    have h2 : r ∈ pods.map (mkPodPeer my) :=
      (sortByKey_perm (fun p : Peer => p.name) (pods.map (mkPodPeer my))).subset hr
    rcases List.mem_map.mp h2 with ⟨pod, hpod, rfl⟩
    refine ⟨pod, hpod, rfl, ?_, rfl, ?_⟩
    · simp [mkPodPeer]
    · simp [mkPodPeer]

/-- C8 witness: the record of the sample pod, with the membership
hypothesis discharged by evaluation. -/
theorem C8_k8s_strategy_witness :
    ∃ pod, pod ∈ [samplePodA]
      ∧ mkPodPeer ("10.0.0.9") samplePodA = mkPodPeer ("10.0.0.9") pod
      ∧ ((mkPodPeer ("10.0.0.9") samplePodA).ready = true
          ↔ ∃ c, c ∈ pod.status.conditions.getD []
              ∧ c.type = "Ready" ∧ c.status = "True")
      ∧ (mkPodPeer ("10.0.0.9") samplePodA).restarts
          = ((pod.status.container_statuses.getD []).map (fun cs => cs.restart_count)).sum
      ∧ ((mkPodPeer ("10.0.0.9") samplePodA).is_self = true
          ↔ (mkPodPeer ("10.0.0.9") samplePodA).ip = ("10.0.0.9")) :=
  (C8_k8s_strategy [samplePodA] ("10.0.0.9")).2
    (mkPodPeer ("10.0.0.9") samplePodA) (by decide)

/-- C9. Every discovery failure mode is swallowed: a Strategy A exception
or missing credentials yields the empty list, a DNS resolution failure
yields the empty list, a timeout or any exception of the composed async
call yields the empty list, the composition of failing strategies yields
the empty list, and the / and /info pages answer 200 for every peer list
and environment — never 500. -/
theorem C9_failures_swallowed :
    (∀ (e my : String) (k8s_available : Bool),
        _discover_via_k8s_api k8s_available (Except.error e) my = [])
    ∧ (∀ (apiCall : Except String (List Pod)) (my : String),
        _discover_via_k8s_api false apiCall my = [])
    ∧ (∀ my : String, _discover_via_dns none my = [])
    ∧ get_peer_pods (Except.error ()) = []
    ∧ (∀ (e my : String) (k8s_available : Bool),
        _fetch_peer_pods k8s_available (Except.error e) none my = [])
    ∧ (∀ peers : List Peer, (index peers).status_code = 200)
    ∧ (∀ (peers : List Peer) (env : List (String × String)),
        (info peers env).status_code = 200) := by
  refine ⟨?_, fun _ _ => rfl, fun _ => rfl, rfl, ?_, fun _ => rfl, fun _ _ => rfl⟩
  · intro e my av
    cases av <;> rfl
  · intro e my av
    cases av <;> rfl

/- ------------------------------------------------------------------ -/
/- Helper lemmas and theorem for the /info environment dump            -/
/- ------------------------------------------------------------------ -/

/-- A row only depends on the name and, for non-secret names, on the
first 100 characters of the value. -/
theorem envRow_congr {kv kw : String × String} (h : envRel kv kw) :
    envRow kv.1 kv.2 = envRow kw.1 kw.2 := by
  obtain ⟨hk, hv⟩ := h
  rw [← hk]
  by_cases hs : isSecretKey kv.1 = true
  · simp [envRow, hs]
  · have hs2 : isSecretKey kv.1 = false := by simpa using hs
    have hval := hv hs2
    simp [envRow, hs2, hval]

/-- Ordered insertion preserves the pointwise environment relation
(the comparison only looks at the names, which agree). -/
theorem forall₂_orderedInsert {a b : String × String} (hab : envRel a b) :
    ∀ {l l2 : List (String × String)}, List.Forall₂ envRel l l2 →
      List.Forall₂ envRel
        (List.orderedInsert (fun u v => strLe u.1 v.1 = true) a l)
        (List.orderedInsert (fun u v => strLe u.1 v.1 = true) b l2) := by
  intro l l2 h
  induction h with
  | nil => exact List.Forall₂.cons hab List.Forall₂.nil
  | cons hx hl ih =>
    rename_i x y l l2
    have hkey : strLe a.1 x.1 = strLe b.1 y.1 := by rw [hab.1, hx.1]
    by_cases hc : strLe a.1 x.1 = true
    · rw [List.orderedInsert, if_pos hc, List.orderedInsert, if_pos (hkey ▸ hc)]
      exact List.Forall₂.cons hab (List.Forall₂.cons hx hl)
    · rw [List.orderedInsert, if_neg hc, List.orderedInsert, if_neg (hkey ▸ hc)]
      exact List.Forall₂.cons hx ih

/-- Sorting by name preserves the pointwise environment relation. -/
theorem forall₂_sortEnv :
    ∀ {l l2 : List (String × String)}, List.Forall₂ envRel l l2 →
      List.Forall₂ envRel (sortByKey (fun kv => kv.1) l) (sortByKey (fun kv => kv.1) l2) := by
  intro l l2 h
  induction h with
  | nil => exact List.Forall₂.nil
  | cons hx hl ih =>
    exact forall₂_orderedInsert hx ih

/-- Folding the rows over pointwise-related environments yields the same
string. -/
theorem foldl_envRow_congr :
    ∀ {u v : List (String × String)}, List.Forall₂ envRel u v →
      ∀ acc : String,
        u.foldl (fun acc kv => acc ++ envRow kv.1 kv.2) acc
          = v.foldl (fun acc kv => acc ++ envRow kv.1 kv.2) acc := by
  intro u v h
  induction h with
  | nil => intro acc; rfl
  | cons hx hl ih =>
    intro acc
    simp only [List.foldl_cons]
    rw [envRow_congr hx]
    exact ih _

/-- The environment table only depends on names and displayed prefixes. -/
theorem env_rows_congr {env env2 : List (String × String)}
    (h : List.Forall₂ envRel env env2) : env_rows env = env_rows env2 := by
  rw [env_rows, env_rows]
  exact foldl_envRow_congr (forall₂_sortEnv h) _

/-- C10. The /info environment dump masks every variable whose name
contains SECRET, PASSWORD, TOKEN or KEY case-insensitively — its row is
unchanged under any change of the value — and every other value is
truncated to its first 100 characters (so at most 100 characters are
displayed, and characters beyond the first 100 cannot influence the
output); consequently the whole /info response is unchanged when secret
values change arbitrarily and non-secret values keep their first 100
characters. -/
theorem C10_env_masking :
    (∀ k v w : String, isSecretKey k = true → envRow k v = envRow k w)
    ∧ (∀ k v : String, isSecretKey k = false →
        envRow k v = envRow k (strTake v 100) ∧ (strTake v 100).length ≤ 100)
    ∧ (∀ env env2 : List (String × String),
        List.Forall₂ envRel env env2 → env_rows env = env_rows env2)
    ∧ (∀ (peers : List Peer) (env env2 : List (String × String)),
        List.Forall₂ envRel env env2 → info peers env = info peers env2) := by
  refine ⟨?_, ?_, fun _ _ h => env_rows_congr h, ?_⟩
  · intro k v w hs
    simp [envRow, hs]
  · intro k v hs
    constructor
    · have htake : strTake (strTake v 100) 100 = strTake v 100 := by
        simp [strTake, List.take_take]
      simp [envRow, hs, htake]
    · show (String.mk (v.data.take 100)).length ≤ 100
      have hlen : (String.mk (v.data.take 100)).length = (v.data.take 100).length := rfl
      rw [hlen]
      exact List.length_take_le 100 v.data
  · intro peers env env2 h
    rw [info, info, env_rows_congr h]

/-- C10 witness: a secret-like name (containing KEY) has its row
unchanged under a change of value. -/
theorem C10_env_masking_witness :
    envRow ("API_KEY") ("topsecretvalue") = envRow ("API_KEY") ("othervalue") :=
  C10_env_masking.1 ("API_KEY") ("topsecretvalue") ("othervalue") (by decide)
